import Mathlib

/-!
# Verification of the statement-comparison engine (`src/steps/consistent.js`)

This file gives a shallow embedding, in Lean 4, of the semantic
statement-comparison engine of the repository: the functions
`correctObjectTypes`, `compareStatements`, `assertStatementMatch` and
`assertStatementNoMatch` of `src/src/steps/consistent.js`, together with the
behaviour of the library functions they call:

* `selectn(path, tree)` — null-safe dotted-path selection;
* Node's legacy `assert.deepEqual` / `assert.notDeepEqual` (loose deep
  equality: primitive leaves are compared with JavaScript abstract equality
  `==`, own enumerable keys are compared as sorted lists, prototypes are
  ignored);
* `moment(s, moment.ISO_8601).isSame(...)` — ISO-8601 calendar-timestamp
  parsing to an instant (epoch milliseconds) and instant equality.  The
  repository-era moment.js rejects bare two-digit UTC offsets such as `+05`
  (moment issue 1723), which is exactly why the source appends `":00"`; the
  parser below models that pre-fix behaviour.  The subset of ISO 8601 that is
  modelled is the extended calendar form
  `YYYY-MM-DD[THH[:MM[:SS[.fff]]]][Z|+-HH:MM|+-HHMM]`; the host environment's
  local timezone (used by moment for offset-less strings) is modelled as UTC.

JavaScript record trees are modelled as the inductive type `JVal`.  A JS array
is an object carrying an `isArr` tag (`Array.isArray`) whose fields are its
index keys `"0"`, `"1"`, … — this lets the model represent the legacy
behaviours the code relies on (e.g. `assert.deepEqual` not distinguishing
arrays from plain objects, and property assignment on arrays).  The source file
runs under `"use strict"`, so assigning a property on a primitive value is a
TypeError, and reading a property of `undefined`/`null` is a TypeError; the
engine's fallible steps are therefore modelled in an `Except` monad whose
errors distinguish TypeErrors from assertion failures.

Mutation: the JS code mutates `actual`, `expected` and `cfg` in place.  The
model is a value-level translation: each function returns the trees/cfg it
would have mutated.  This is faithful for non-aliased inputs, which is the
documented contract of the engine (two concurrent comparisons must never share
tree instances, and `deepCopy` hands the engine disjoint trees).
-/

set_option maxRecDepth 4000

namespace XapiConsistent

/-- A JavaScript value as it occurs in the record trees handled by
`consistent.js`: `null`, booleans, numbers (integral; the trees under test
hold no fractional leaves), strings, and objects.  An object carries
`isArr := true` when it is a JS `Array` (its element fields are then the index
keys `"0"`, `"1"`, …, in order). -/
inductive JVal : Type where
  | null : JVal
  | bool (b : Bool) : JVal
  | num (n : Int) : JVal
  | str (s : String) : JVal
  | obj (isArr : Bool) (fields : List (String × JVal)) : JVal
deriving Repr

mutual

/-- Structural (value) equality test on `JVal`. -/
def JVal.beq : JVal → JVal → Bool
  | .null, .null => true
  | .bool b, .bool c => b == c
  | .num n, .num m => n == m
  | .str s, .str t => s == t
  | .obj a fs, .obj b gs => a == b && JVal.beqFields fs gs
  | _, _ => false

/-- Structural equality test on field lists. -/
def JVal.beqFields : List (String × JVal) → List (String × JVal) → Bool
  | [], [] => true
  | (k, v) :: r, (l, w) :: s => k == l && JVal.beq v w && JVal.beqFields r s
  | _, _ => false

end

mutual

theorem JVal.beq_iff : ∀ (a b : JVal), (JVal.beq a b = true) ↔ a = b
  | .null, .null => by simp [JVal.beq]
  | .null, .bool _ | .null, .num _ | .null, .str _ | .null, .obj _ _ => by simp [JVal.beq]
  | .bool _, .null | .bool _, .num _ | .bool _, .str _ | .bool _, .obj _ _ => by simp [JVal.beq]
  | .num _, .null | .num _, .bool _ | .num _, .str _ | .num _, .obj _ _ => by simp [JVal.beq]
  | .str _, .null | .str _, .bool _ | .str _, .num _ | .str _, .obj _ _ => by simp [JVal.beq]
  | .obj _ _, .null | .obj _ _, .bool _ | .obj _ _, .num _ | .obj _ _, .str _ => by
      simp [JVal.beq]
  | .bool b, .bool c => by simp [JVal.beq]
  | .num n, .num m => by simp [JVal.beq]
  | .str s, .str t => by simp [JVal.beq]
  | .obj a fs, .obj b gs => by
      simp [JVal.beq, JVal.beqFields_iff fs gs]

theorem JVal.beqFields_iff : ∀ (fs gs : List (String × JVal)),
    (JVal.beqFields fs gs = true) ↔ fs = gs
  | [], [] => by simp [JVal.beqFields]
  | [], _ :: _ => by simp [JVal.beqFields]
  | _ :: _, [] => by simp [JVal.beqFields]
  | (k, v) :: r, (l, w) :: s => by
      simp [JVal.beqFields, JVal.beq_iff v w, JVal.beqFields_iff r s, and_assoc]

end

instance : DecidableEq JVal := fun a b =>
  decidable_of_iff (JVal.beq a b = true) (JVal.beq_iff a b)

namespace JVal

/-- Own-property lookup on an object's field list (first match). -/
def getField : List (String × JVal) → String → Option JVal
  | [], _ => none
  | (k, v) :: rest, key => if k = key then some v else getField rest key

/-- Property assignment on a field list: overwrite in place if the key is
present, append otherwise (JS property-creation order). -/
def setField : List (String × JVal) → String → JVal → List (String × JVal)
  | [], key, v => [(key, v)]
  | (k, w) :: rest, key, v =>
      if k = key then (k, v) :: rest else (k, w) :: setField rest key v

/-- The JS `delete` operator on a field list. -/
def delField : List (String × JVal) → String → List (String × JVal)
  | [], _ => []
  | (k, w) :: rest, key =>
      if k = key then delField rest key else (k, w) :: delField rest key

/-- JS truthiness of a possibly-`undefined` value (`none` = `undefined`). -/
def jsTruthy : Option JVal → Bool
  | none => false
  | some .null => false
  | some (.bool b) => b
  | some (.num n) => n != 0
  | some (.str s) => s != ""
  | some (.obj _ _) => true

/-- `Array.isArray` on a possibly-`undefined` value. -/
def isArrayVal : Option JVal → Bool
  | some (.obj true _) => true
  | _ => false

/-- Property read `base[key]` where `base` may be `undefined` (`none`).
Reading a property of `undefined` or `null` is a TypeError; reading a
(non-index) property of another primitive yields `undefined`. -/
def getPropE : Option JVal → String → Except String (Option JVal)
  | none, key => .error ("TypeError: Cannot read property '" ++ key ++ "' of undefined")
  | some .null, key => .error ("TypeError: Cannot read property '" ++ key ++ "' of null")
  | some (.obj _ fs), key => .ok (getField fs key)
  | some _, _ => .ok none

/-- Strict-mode property assignment `base[key] = v`: allowed on objects
(including arrays), a TypeError on primitives and `null`
(`consistent.js` runs under `"use strict"`). -/
def setProp (base : JVal) (key : String) (v : JVal) : Except String JVal :=
  match base with
  | .obj a fs => .ok (.obj a (setField fs key v))
  | _ => .error ("TypeError: Cannot create property '" ++ key ++ "' on primitive")

/-- Strict-mode `delete base[key]`: removes an own property of an object,
silently no-ops on non-null primitives, TypeError on `null`. -/
def delProp (base : JVal) (key : String) : Except String JVal :=
  match base with
  | .null => .error ("TypeError: Cannot convert null to object in delete")
  | .obj a fs => .ok (.obj a (delField fs key))
  | other => .ok other

end JVal

open JVal

/-- The `selectn(query, object)` library call used by `correctObjectTypes`:
drills into a tree along a (pre-split) dotted path, yielding `undefined`
(`none`) as soon as a segment is missing or the current value is not an
object; never raises. -/
def selectn : List String → JVal → Option JVal
  | [], v => some v
  | key :: rest, .obj _ fs =>
      match getField fs key with
      | some v => selectn rest v
      | none => none
  | _ :: _, _ => none

/-- A canonical decimal array-index key (`"0"`, `"1"`, …, no leading zeros). -/
def isIdxKey (s : String) : Bool :=
  s.length > 0 && s.data.all Char.isDigit && (s == "0" || s.data.head? != some '0')

/-- The index fields of an array's field list, in order: the elements that
`Array.prototype.forEach` visits. -/
def idxFields (fs : List (String × JVal)) : List (String × JVal) :=
  fs.filter (fun kv => isIdxKey kv.1)

/-- Build a well-formed JS array value. -/
def jarr (xs : List JVal) : JVal :=
  .obj true (xs.enum.map (fun p => (toString p.1, p.2)))

/-- Build a plain JS object value. -/
def jobj (fs : List (String × JVal)) : JVal := .obj false fs

/-- Integer value of a digit string. -/
def digitsVal (cs : List Char) : Int :=
  cs.foldl (fun acc c => acc * 10 + ((c.toNat : Int) - 48)) 0

/-- JS whitespace (the forms relevant to `ToNumber` trimming). -/
def isWs (c : Char) : Bool :=
  c == ' ' || c == '\t' || c == '\n' || c == '\r'

/-- JS `ToNumber` on a string, restricted to the integral results the model
can compare with its integral `num` leaves: `some n` when the string denotes
the integer `n` (decimal, optional sign, optional all-zero fraction; the empty
or all-whitespace string denotes `0`), `none` when the string denotes `NaN` or
a non-integral number (either way it can never `==`-equal an integral number).
Hex and exponent forms are outside the modelled subset. -/
def toNumberStr (s : String) : Option Int :=
  let cs := ((s.data.dropWhile isWs).reverse.dropWhile isWs).reverse
  if cs.isEmpty then some 0
  else
    let (sgn, cs1) : Int × List Char :=
      match cs with
      | '+' :: r => (1, r)
      | '-' :: r => (-1, r)
      | r => (1, r)
    let intPart := cs1.takeWhile Char.isDigit
    let rest := cs1.dropWhile Char.isDigit
    if intPart.isEmpty then none
    else
      match rest with
      | [] => some (sgn * digitsVal intPart)
      | '.' :: frac => if frac.all (· == '0') then some (sgn * digitsVal intPart) else none
      | _ => none

/-- JavaScript abstract equality `==` between primitive (non-object) values,
as used by legacy `assert.deepEqual` on leaves: `null` equals only
`null`/`undefined`; booleans and strings are compared through `ToNumber`
against numbers; same-type primitives compare natively. -/
def jsLooseEq : JVal → JVal → Bool
  | .null, .null => true
  | .null, _ => false
  | _, .null => false
  | .bool b, .bool c => b == c
  | .bool b, .num n => (if b then (1 : Int) else 0) == n
  | .num n, .bool b => n == (if b then (1 : Int) else 0)
  | .bool b, .str s => toNumberStr s == some (if b then (1 : Int) else 0)
  | .str s, .bool b => toNumberStr s == some (if b then (1 : Int) else 0)
  | .num n, .num m => n == m
  | .num n, .str s => toNumberStr s == some n
  | .str s, .num n => toNumberStr s == some n
  | .str s, .str t => s == t
  | _, _ => false

mutual

/-- Node's legacy `assert.deepEqual` predicate (`_deepEqual` of Node 0.x's
`assert` module, the vintage this repository runs on): two non-objects are
compared with abstract equality `==`; an object never equals a non-object
(`Object.keys` on an ES5 primitive throws and is caught, yielding false); two
objects are equal when their own enumerable key lists agree as sorted lists
(equivalently, as permutations — prototypes and array-ness are NOT compared,
so an array can equal a plain object) and each key's values are recursively
`_deepEqual`.  An absent key is therefore always a mismatch: the key-list
comparison runs before any value comparison, so `{a: null}` never equals
`{}`. -/
def jsDeepEqual (a b : JVal) : Bool :=
  match a, b with
  | .obj _ fs, .obj _ gs =>
      decide (List.Perm (fs.map Prod.fst) (gs.map Prod.fst)) && jsDeepEqualFields fs gs
  | .obj _ _, _ => false
  | _, .obj _ _ => false
  | x, y => jsLooseEq x y

/-- The per-key loop of `_deepEqual`'s `objEquiv`: for each own key of the
first object, recursively compare its value with the other object's value at
that key.  The `none` arm transcribes node's `_deepEqual(a[key], undefined)`
fallthrough (`undefined` `==`-equals only `null`); it is dead code on
duplicate-free field lists, because `jsDeepEqual` only consults this loop
under its key-permutation conjunct, which guarantees every key of the first
list occurs in the second. -/
def jsDeepEqualFields : List (String × JVal) → List (String × JVal) → Bool
  | [], _ => true
  | (k, v) :: rest, gs =>
      (match getField gs k with
       | some w => jsDeepEqual v w
       | none => decide (v = JVal.null)) && jsDeepEqualFields rest gs

end

mutual

/-- JS `String(v)` coercion, as triggered by `RegExp.test` and by the
string-concatenating `+=` in the timestamp fix-up: strings are themselves,
numbers/booleans/null print canonically, arrays join their elements with `","`
(`null` printing as the empty string inside a join), plain objects print as
`"[object Object]"`. -/
def jsToString : JVal → String
  | .null => "null"
  | .bool b => if b then "true" else "false"
  | .num n => toString n
  | .str s => s
  | .obj false _ => "[object Object]"
  | .obj true fs => String.intercalate "," (jsToStringElems fs)

/-- `Array.prototype.join(",")` over the index fields of an array. -/
def jsToStringElems : List (String × JVal) → List String
  | [] => []
  | (k, v) :: rest =>
      if isIdxKey k then
        (if v = JVal.null then "" else jsToString v) :: jsToStringElems rest
      else jsToStringElems rest

end

/-- The test `/[-+]\d\d$/.test(s)` of `consistent.js` line 165: does the
string end in a sign-prefixed two-digit (minute-less) timezone offset? -/
def twoDigitOffsetRe (s : String) : Bool :=
  match s.data.reverse with
  | d1 :: d2 :: c :: _ => d1.isDigit && d2.isDigit && (c == '+' || c == '-')
  | _ => false

/-- Read exactly `n` decimal digits off the front of a character list. -/
def readDigits (n : Nat) (cs : List Char) : Option (Int × List Char) :=
  let ds := cs.take n
  if ds.length = n && ds.all Char.isDigit then some (digitsVal ds, cs.drop n) else none

/-- Days in a (proleptic Gregorian) month, as validated by moment. -/
def daysInMonth (y m : Int) : Int :=
  if m = 2 then (if y % 4 = 0 && (y % 100 != 0 || y % 400 = 0) then 29 else 28)
  else if m = 4 || m = 6 || m = 9 || m = 11 then 30 else 31

/-- Days since the epoch 1970-01-01 of a Gregorian calendar date
(the standard days-from-civil computation, floor divisions). -/
def daysFromCivil (y m d : Int) : Int :=
  let y1 := y - (if m ≤ 2 then 1 else 0)
  let era := Int.fdiv y1 400
  let yoe := y1 - era * 400
  let mp := (m + 9) % 12
  let doy := Int.fdiv (153 * mp + 2) 5 + d - 1
  let doe := yoe * 365 + Int.fdiv yoe 4 - Int.fdiv yoe 100 + doy
  era * 146097 + doe - 719468

/-- Milliseconds denoted by a fractional-seconds digit run (first three
digits, zero-padded on the right), with the remaining input. -/
def parseFrac (cs : List Char) : Option (Int × List Char) :=
  let ds := cs.takeWhile Char.isDigit
  if ds.isEmpty then none
  else
    let m3 := ds.take 3
    some (digitsVal m3 * ((10 : Int) ^ (3 - m3.length)), cs.dropWhile Char.isDigit)

/-- Parse the time-of-day part `HH[:MM[:SS[.fff]]]` to milliseconds of day,
with the remaining input. -/
def parseTimePart (cs : List Char) : Option (Int × List Char) :=
  match readDigits 2 cs with
  | none => none
  | some (hh, cs1) =>
    if hh > 23 then none else
    match cs1 with
    | ':' :: cs2 =>
      match readDigits 2 cs2 with
      | none => none
      | some (mm, cs3) =>
        if mm > 59 then none else
        match cs3 with
        | ':' :: cs4 =>
          match readDigits 2 cs4 with
          | none => none
          | some (ss, cs5) =>
            if ss > 59 then none else
            match cs5 with
            | c :: cs6 =>
              if c == '.' || c == ',' then
                match parseFrac cs6 with
                | none => none
                | some (ms, cs7) => some (((hh * 60 + mm) * 60 + ss) * 1000 + ms, cs7)
              else some (((hh * 60 + mm) * 60 + ss) * 1000, cs5)
            | [] => some (((hh * 60 + mm) * 60 + ss) * 1000, [])
        | _ => some ((hh * 60 + mm) * 60000, cs3)
    | _ => some (hh * 3600000, cs1)

/-- Parse the trailing UTC-offset part, consuming all remaining input:
`some none` for no offset (local-time string), `some (some minutes)` for `Z`,
`+-HH:MM` or `+-HHMM`.  A bare sign-prefixed two-digit offset such as `+05`
yields `none` (invalid): the repository-era moment.js rejects it — moment
issue 1723, the very defect the `":00"` fix-up in `consistent.js` works
around. -/
def parseOffsetPart (cs : List Char) : Option (Option Int) :=
  match cs with
  | [] => some none
  | ['Z'] => some (some 0)
  | c :: rest =>
      if c == '+' || c == '-' then
        let sgn : Int := if c == '+' then 1 else -1
        match readDigits 2 rest with
        | none => none
        | some (hh, rest2) =>
          match rest2 with
          | [] => none
          | ':' :: r3 =>
            match readDigits 2 r3 with
            | some (mm, []) => some (some (sgn * (hh * 60 + mm)))
            | _ => none
          | _ =>
            match readDigits 2 rest2 with
            | some (mm, []) => some (some (sgn * (hh * 60 + mm)))
            | _ => none
      else none

/-- `moment(s, moment.ISO_8601)` reduced to the instant it denotes, as epoch
milliseconds (`none` = invalid date).  Modelled subset: extended calendar form
`YYYY-MM-DD[THH[:MM[:SS[.fff]]]][offset]` with calendar validation; an
offset-less string is local time, with the host timezone modelled as UTC. -/
def momentISO (s : String) : Option Int :=
  match readDigits 4 s.data with
  | none => none
  | some (y, cs) =>
  match cs with
  | '-' :: cs1 =>
    match readDigits 2 cs1 with
    | none => none
    | some (mo, cs2) =>
    match cs2 with
    | '-' :: cs3 =>
      match readDigits 2 cs3 with
      | none => none
      | some (d, cs4) =>
      if mo < 1 || 12 < mo || d < 1 || daysInMonth y mo < d then none
      else
        let base := daysFromCivil y mo d * 86400000
        match cs4 with
        | [] => some base
        | 'T' :: cs5 =>
          match parseTimePart cs5 with
          | none => none
          | some (ms, cs6) =>
            match parseOffsetPart cs6 with
            | none => none
            | some none => some (base + ms)
            | some (some off) => some (base + ms - off * 60000)
        | _ => none
    | _ => none
  | _ => none

/-- `moment(input, moment.ISO_8601)` on a possibly-`undefined` JS value:
a string is ISO-parsed; a number is taken as epoch milliseconds (moment
ignores the format for non-string input); anything else is an invalid date
(`none`). -/
def momentJs : Option JVal → Option Int
  | some (.str s) => momentISO s
  | some (.num n) => some n
  | _ => none

/-- `moment(a).isSame(moment(b))`: instant equality; false whenever either
side is invalid. -/
def momentIsSame : Option Int → Option Int → Bool
  | some x, some y => x == y
  | _, _ => false

/-- The single-valued polymorphic-sub-record locations of `consistent.js`
(`objectTypeLocations`, lines 30–36), pre-split at the dots. -/
def objectTypeLocations : List (List String) :=
  [["actor"],
   ["object"],
   ["context", "instructor"],
   ["context", "team"],
   ["context", "statement"]]

/-- The collection-valued locations of `consistent.js`
(`objectTypeLocationsMultiple`, lines 44–52), pre-split at the dots. -/
def objectTypeLocationsMultiple : List (List String) :=
  [["actor", "member"],
   ["context", "instructor", "member"],
   ["context", "team", "member"],
   ["context", "contextActivities", "category"],
   ["context", "contextActivities", "parent"],
   ["context", "contextActivities", "grouping"],
   ["context", "contextActivities", "other"]]

/-- Write `newSub` back over the value reached by `path` (the tree-level
image of JS's in-place mutation of a sub-object obtained via `selectn`); the
identity when the path does not resolve (never reached at call sites: the
source only mutates sub-objects that `selectn` found). -/
def updateAtPath (root : JVal) (path : List String) (newSub : JVal) : JVal :=
  match path with
  | [] => newSub
  | key :: rest =>
      match root with
      | .obj a fs =>
          match getField fs key with
          | some child => .obj a (setField fs key (updateAtPath child rest newSub))
          | none => root
      | _ => root

/-- One iteration of the single-valued loop of `correctObjectTypes`
(`consistent.js` lines 55–72): skip when the expected sub-object is falsy;
otherwise read `actualSubObj.objectType` (a TypeError when the actual
sub-object is `undefined` or `null`), and when it is defined while
`expectedSubObj.objectType` is not, assign it onto the expected sub-object
(a strict-mode TypeError when that sub-object is a primitive). -/
def correctOne (actual expected : JVal) (loc : List String) : Except String JVal :=
  let actualSubObj := selectn loc actual
  let expectedSubObj := selectn loc expected
  if jsTruthy expectedSubObj = false then .ok expected
  else
    match getPropE actualSubObj "objectType" with
    | .error e => .error e
    | .ok none => .ok expected
    | .ok (some otv) =>
        match getPropE expectedSubObj "objectType" with
        | .error e => .error e
        | .ok (some _) => .ok expected
        | .ok none =>
            match expectedSubObj with
            | some (.obj a fs) =>
                .ok (updateAtPath expected loc (.obj a (setField fs "objectType" otv)))
            | _ => .error "TypeError: Cannot create property 'objectType' on primitive"

/-- The `actualSubObj.forEach(function (v, i) {...})` body of the
collection loop (`consistent.js` lines 87–97), iterating the actual array's
elements with their index keys and threading the expected tree: for each
element `v` read `v.objectType` (TypeError when `v` is `null`), and when it
is defined read `expectedSubObj[i].objectType` (a TypeError when the expected
sequence has no element at `i` — the unguarded short-expected case) and
assign when absent.  `expectedSubObj` is re-selected per element, which on
tree values coincides with the JS closure's captured reference. -/
def reconcileElems (loc : List String) (elems : List (String × JVal)) (expected : JVal) :
    Except String JVal :=
  match elems with
  | [] => .ok expected
  | (k, v) :: rest =>
      match getPropE (some v) "objectType" with
      | .error e => .error e
      | .ok none => reconcileElems loc rest expected
      | .ok (some otv) =>
          let expectedSubObj := selectn loc expected
          match getPropE expectedSubObj k with
          | .error e => .error e
          | .ok ei =>
              match getPropE ei "objectType" with
              | .error e => .error e
              | .ok (some _) => reconcileElems loc rest expected
              | .ok none =>
                  match ei with
                  | some (.obj a fs) =>
                      reconcileElems loc rest
                        (updateAtPath expected (loc ++ [k]) (.obj a (setField fs "objectType" otv)))
                  | _ => .error "TypeError: Cannot create property 'objectType' on primitive"

/-- One iteration of the collection loop of `correctObjectTypes`
(`consistent.js` lines 75–98): skip when the expected value is falsy or the
actual value is not an array, else run the element loop. -/
def correctMultiOne (actual expected : JVal) (loc : List String) : Except String JVal :=
  let actualSubObj := selectn loc actual
  let expectedSubObj := selectn loc expected
  if jsTruthy expectedSubObj = false || isArrayVal actualSubObj = false then .ok expected
  else
    match actualSubObj with
    | some (.obj _ afs) => reconcileElems loc (idxFields afs) expected
    | _ => .ok expected

/-- Left-to-right fold of a per-location reconciliation step over a location
list, aborting at the first raised error (the JS `forEach` loops, whose
exceptions propagate out of `correctObjectTypes`). -/
def foldLocs (f : JVal → List String → Except String JVal) :
    List (List String) → JVal → Except String JVal
  | [], e => .ok e
  | loc :: rest, e =>
      match f e loc with
      | .error err => .error err
      | .ok e1 => foldLocs f rest e1

/-- `correctObjectTypes(actual, expected)` (`consistent.js` lines 54–100):
the discriminator reconciler.  Reads `actual`, returns the (possibly
mutated) `expected` tree, or the TypeError the JS code would raise. -/
def correctObjectTypes (actual expected : JVal) : Except String JVal :=
  match foldLocs (fun e loc => correctOne actual e loc) objectTypeLocations expected with
  | .error err => .error err
  | .ok e1 =>
      foldLocs (fun e loc => correctMultiOne actual e loc) objectTypeLocationsMultiple e1

/-- An exception escaping the comparison engine: a TypeError from an
unguarded property access/assignment, or an `AssertionError` from the
`assert` module. -/
inductive JsErr : Type where
  | typeError (msg : String) : JsErr
  | assertionError (msg : String) : JsErr
deriving Repr, DecidableEq

/-- The `cfg` argument of `compareStatements`: a caller-owned mutable object
with the two properties the engine touches (`none` = property absent). -/
structure Cfg : Type where
  assertion : Option String := none
  meaningOnly : Option Bool := none
deriving Repr, DecidableEq

/-- The in-place `cfg` defaulting of `compareStatements` lines 111–113:
`cfg.assertion = cfg.assertion || "deepEqual"` (a falsy value — absent or the
empty string — is replaced) and `cfg.meaningOnly = cfg.meaningOnly || false`.
The JS `cfg = cfg || {}` guard is implicit in `Cfg` being a record. -/
def cfgNormalize (cfg : Cfg) : Cfg :=
  { assertion := some (match cfg.assertion with
      | some s => if s = "" then "deepEqual" else s
      | none => "deepEqual"),
    meaningOnly := some (match cfg.meaningOnly with
      | some b => b
      | none => false) }

/-- Lift a TypeError-producing step into the engine's error type. -/
def liftTy {α : Type} : Except String α → Except JsErr α
  | .error e => .error (.typeError e)
  | .ok a => .ok a

/-- The sub-statement re-reconciliation of `compareStatements` lines 148–150:
when `actual.object.objectType === "SubStatement"`, run `correctObjectTypes`
again on the two `object` sub-records (mutating `expected.object` in place);
reading `actual.object.objectType` is the unguarded access that makes
`actual.object` a precondition of the engine.  Returns the new expected
tree. -/
def subStatementStep (actual expected : JVal) : Except String JVal :=
  match getPropE (some actual) "object" with
  | .error e => .error e
  | .ok aobj =>
  match getPropE aobj "objectType" with
  | .error e => .error e
  | .ok aot =>
  if aot = some (.str "SubStatement") then
    match aobj, selectn ["object"] expected with
    | some av, some ev =>
        match correctObjectTypes av ev with
        | .error e => .error e
        | .ok ev1 => .ok (updateAtPath expected ["object"] ev1)
    | _, _ => .ok expected
  else .ok expected

/-- The independent timestamp comparison of `compareStatements` lines
157–171: when `expected.timestamp` is defined, append `":00"` if it matches
`/[-+]\d\d$/` (the moment-1723 workaround), compare the two timestamps as
ISO-8601 instants via moment, delete `expected.timestamp` on success and
raise `AssertionError` on failure; in every non-raising path finally delete
`actual.timestamp` (line 171). -/
def tsStep (actual expected : JVal) : Except JsErr (JVal × JVal) :=
  match getPropE (some expected) "timestamp" with
  | .error e => .error (.typeError e)
  | .ok none =>
      match delProp actual "timestamp" with
      | .error e => .error (.typeError e)
      | .ok actual1 => .ok (actual1, expected)
  | .ok (some tv) =>
      let s := jsToString tv
      let fix := twoDigitOffsetRe s
      let tsv : JVal := if fix then .str (s ++ ":00") else tv
      match (if fix then setProp expected "timestamp" (.str (s ++ ":00")) else .ok expected) with
      | .error e => .error (.typeError e)
      | .ok expected1 =>
      match getPropE (some actual) "timestamp" with
      | .error e => .error (.typeError e)
      | .ok atsv =>
      if momentIsSame (momentJs (some tsv)) (momentJs atsv) then
        match delProp expected1 "timestamp" with
        | .error e => .error (.typeError e)
        | .ok expected2 =>
        match delProp actual "timestamp" with
        | .error e => .error (.typeError e)
        | .ok actual1 => .ok (actual1, expected2)
      else .error (.assertionError "retrieved statement timestamp matches")

/-- The normalization pipeline of `compareStatements` (lines 115–171, i.e.
everything before the final `assert[cfg.assertion](actual, expected)`):
default `expected.id` from the scenario's tracked id when absent, force
`expected.version = "1.0.0"`, delete `actual.stored`/`actual.authority`
always and `expected.version`/`expected.stored`/`expected.authority` in
meaning-only mode, reconcile discriminators (top level, plus one level down
for a sub-statement object), then resolve the timestamp.  Returns the two
normalized trees handed to the final assertion, or the exception raised on
the way. -/
def statementNormalize (actual expected : JVal) (meaningOnly : Bool) (ctxId : JVal) :
    Except JsErr (JVal × JVal) :=
  match getPropE (some expected) "id" with
  | .error e => .error (.typeError e)
  | .ok idv =>
  match (match idv with
         | none => setProp expected "id" ctxId
         | some _ => .ok expected) with
  | .error e => .error (.typeError e)
  | .ok expected1 =>
  match setProp expected1 "version" (.str "1.0.0") with
  | .error e => .error (.typeError e)
  | .ok expected2 =>
  match delProp actual "stored" with
  | .error e => .error (.typeError e)
  | .ok actual1 =>
  match delProp actual1 "authority" with
  | .error e => .error (.typeError e)
  | .ok actual2 =>
  match ((if meaningOnly then
           match delProp expected2 "version" with
           | .error e => .error e
           | .ok e1 =>
           match delProp e1 "stored" with
           | .error e => .error e
           | .ok e2 => delProp e2 "authority"
         else .ok expected2) : Except String JVal) with
  | .error e => .error (.typeError e)
  | .ok expected3 =>
  match correctObjectTypes actual2 expected3 with
  | .error e => .error (.typeError e)
  | .ok expected4 =>
  match subStatementStep actual2 expected4 with
  | .error e => .error (.typeError e)
  | .ok expected5 => tsStep actual2 expected5

/-- The final `assert[cfg.assertion](actual, expected)` of line 173:
`deepEqual` raises unless the trees are loosely deep-equal, `notDeepEqual`
raises when they are; any other method name is not a function on `assert`
that the engine ever reaches (the wrappers force one of the two). -/
def assertFinal (assertion : String) (a e : JVal) : Except JsErr Unit :=
  if assertion = "deepEqual" then
    if jsDeepEqual a e then .ok () else .error (.assertionError "deepEqual")
  else if assertion = "notDeepEqual" then
    if jsDeepEqual a e then .error (.assertionError "notDeepEqual") else .ok ()
  else .error (.typeError "TypeError: assert[cfg.assertion] is not a function")

/-- `compareStatements(actual, expected, cfg, context)` (`consistent.js`
lines 107–174).  The first component is the call's outcome (success or the
exception raised); the second is the caller's `cfg` object as the call leaves
it — its in-place defaulting happens before any raising step, so it persists
even when the call raises.  `ctxId` is `context.scenarioResource.id`. -/
def compareStatements (actual expected : JVal) (cfg : Cfg) (ctxId : JVal) :
    Except JsErr Unit × Cfg :=
  let cfg1 := cfgNormalize cfg
  let outcome : Except JsErr Unit :=
    match statementNormalize actual expected
        (match cfg1.meaningOnly with | some b => b | none => false) ctxId with
    | .error e => .error e
    | .ok (a, e) =>
        assertFinal (match cfg1.assertion with | some s => s | none => "deepEqual") a e
  (outcome, cfg1)

/-- `assertStatementMatch` (`consistent.js` lines 176–179): force
`cfg.assertion = "deepEqual"` (overwriting whatever the caller put there,
in place) and delegate to `compareStatements`. -/
def assertStatementMatch (actual expected : JVal) (cfg : Cfg) (ctxId : JVal) :
    Except JsErr Unit × Cfg :=
  compareStatements actual expected { cfg with assertion := some "deepEqual" } ctxId

/-- `assertStatementNoMatch` (`consistent.js` lines 181–184): force
`cfg.assertion = "notDeepEqual"` and delegate to `compareStatements`. -/
def assertStatementNoMatch (actual expected : JVal) (cfg : Cfg) (ctxId : JVal) :
    Except JsErr Unit × Cfg :=
  compareStatements actual expected { cfg with assertion := some "notDeepEqual" } ctxId

/-! ### Well-formedness of record trees

A tree that a real JS program can hand the engine never has two own
properties with the same key; `wfRecord` is that (recursive) condition.  The
universally-quantified theorems that need it take it as a hypothesis — every
JSON-parsed or literal JS tree satisfies it. -/

mutual

/-- No object anywhere in the tree has a duplicate key. -/
def wfRecord : JVal → Bool
  | .obj _ fs => decide ((fs.map Prod.fst).Nodup) && wfRecordFields fs
  | _ => true

/-- All field values of the list are duplicate-key-free trees. -/
def wfRecordFields : List (String × JVal) → Bool
  | [] => true
  | (_, v) :: rest => wfRecord v && wfRecordFields rest

end

theorem wfRecordFields_mem {fs : List (String × JVal)} (h : wfRecordFields fs = true) :
    ∀ kv ∈ fs, wfRecord kv.2 = true := by
  induction fs with
  | nil => intro kv hm; simp at hm
  | cons hd tl ih =>
      obtain ⟨k, v⟩ := hd
      rw [wfRecordFields, Bool.and_eq_true] at h
      intro kv hm
      rcases List.mem_cons.mp hm with heq | htl
      · subst heq; exact h.1
      · exact ih h.2 kv htl

/-! ### Association-list lemmas -/

theorem getField_mem {fs : List (String × JVal)} {k : String} {v : JVal}
    (h : getField fs k = some v) : (k, v) ∈ fs := by
  induction fs with
  | nil => simp [getField] at h
  | cons hd tl ih =>
      obtain ⟨k1, v1⟩ := hd
      by_cases hk : k1 = k
      · subst hk
        simp [getField] at h
        subst h
        exact List.mem_cons_self _ _
      · simp [getField, hk] at h
        exact List.mem_cons_of_mem _ (ih h)

theorem getField_of_mem_nodup {fs : List (String × JVal)} {k : String} {v : JVal}
    (hnd : (fs.map Prod.fst).Nodup) (hm : (k, v) ∈ fs) : getField fs k = some v := by
  induction fs with
  | nil => simp at hm
  | cons hd tl ih =>
      obtain ⟨k1, v1⟩ := hd
      simp only [List.map_cons, List.nodup_cons] at hnd
      rcases List.mem_cons.mp hm with heq | htl
      · injection heq with h1 h2
        subst h1; subst h2
        simp [getField]
      · have hne : k1 ≠ k := by
          intro hk
          subst hk
          exact hnd.1 (List.mem_map.mpr ⟨(k1, v), htl, rfl⟩)
        simp [getField, hne]
        exact ih hnd.2 htl

theorem setField_self {fs : List (String × JVal)} {k : String} {v : JVal}
    (h : getField fs k = some v) : setField fs k v = fs := by
  induction fs with
  | nil => simp [getField] at h
  | cons hd tl ih =>
      obtain ⟨k1, v1⟩ := hd
      by_cases hk : k1 = k
      · subst hk
        simp [getField] at h
        simp [setField, h]
      · simp [getField, hk] at h
        simp [setField, hk, ih h]

theorem delField_absent {fs : List (String × JVal)} {k : String}
    (h : getField fs k = none) : delField fs k = fs := by
  induction fs with
  | nil => simp [delField]
  | cons hd tl ih =>
      obtain ⟨k1, v1⟩ := hd
      by_cases hk : k1 = k
      · subst hk; simp [getField] at h
      · simp [getField, hk] at h
        simp [delField, hk, ih h]

theorem getField_delField (fs : List (String × JVal)) (k j : String) :
    getField (delField fs k) j = if j = k then none else getField fs j := by
  induction fs with
  | nil => simp [getField, delField]
  | cons hd tl ih =>
      obtain ⟨k1, v1⟩ := hd
      by_cases hk : k1 = k
      · subst hk
        simp only [delField, eq_self_iff_true, if_true]
        rw [ih]
        by_cases hj : j = k1
        · simp [hj]
        · have hj2 : ¬ (k1 = j) := fun h => hj h.symm
          simp [getField, hj, hj2]
      · simp only [delField, if_neg hk, getField]
        by_cases hj : k1 = j
        · rw [if_pos hj, if_pos hj, if_neg (fun h => hk (hj.trans h))]
        · rw [if_neg hj, if_neg hj, ih]

/-! ### Well-formedness is hereditary -/

theorem wfRecord_obj {b : Bool} {fs : List (String × JVal)} (h : wfRecord (.obj b fs) = true) :
    (fs.map Prod.fst).Nodup ∧ ∀ kv ∈ fs, wfRecord kv.2 = true := by
  rw [wfRecord] at h
  simp only [Bool.and_eq_true, decide_eq_true_eq] at h
  exact ⟨h.1, wfRecordFields_mem h.2⟩

theorem wfRecord_getField {b : Bool} {fs : List (String × JVal)} {k : String} {v : JVal}
    (h : wfRecord (.obj b fs) = true) (hg : getField fs k = some v) : wfRecord v = true :=
  (wfRecord_obj h).2 _ (getField_mem hg)

theorem wfRecord_selectn {loc : List String} {r v : JVal}
    (h : wfRecord r = true) (hs : selectn loc r = some v) : wfRecord v = true := by
  induction loc generalizing r with
  | nil => simp [selectn] at hs; rw [← hs]; exact h
  | cons key rest ih =>
      cases r with
      | obj b fs =>
          rw [selectn] at hs
          cases hg : getField fs key with
          | none => rw [hg] at hs; simp at hs
          | some child =>
              rw [hg] at hs
              exact ih (wfRecord_getField h hg) hs
      | null => simp [selectn] at hs
      | bool c => simp [selectn] at hs
      | num n => simp [selectn] at hs
      | str s => simp [selectn] at hs

/-! ### Reflexivity of legacy loose deep equality (on duplicate-free trees) -/

theorem jsLooseEq_refl (v : JVal) (h : ∀ b fs, v ≠ .obj b fs) : jsLooseEq v v = true := by
  cases v with
  | null => rfl
  | bool b => simp [jsLooseEq]
  | num n => simp [jsLooseEq]
  | str s => simp [jsLooseEq]
  | obj b fs => exact absurd rfl (h b fs)

theorem jsDeepEqual_refl : ∀ (n : Nat) (v : JVal), sizeOf v ≤ n → wfRecord v = true →
    jsDeepEqual v v = true := by
  intro n
  induction n with
  | zero =>
      intro v hs hwf
      exfalso
      cases v <;> simp only [JVal.null.sizeOf_spec, JVal.bool.sizeOf_spec,
        JVal.num.sizeOf_spec, JVal.str.sizeOf_spec, JVal.obj.sizeOf_spec] at hs <;> omega
  | succ n ih =>
      intro v hs hwf
      cases v with
      | obj b fs =>
          rw [jsDeepEqual]
          obtain ⟨hnd, hsub⟩ := wfRecord_obj hwf
          simp only [Bool.and_eq_true, decide_eq_true_eq]
          refine ⟨List.Perm.refl _, ?_⟩
          have aux : ∀ sub : List (String × JVal), (∀ kv ∈ sub, kv ∈ fs) →
              jsDeepEqualFields sub fs = true := by
            intro sub
            induction sub with
            | nil => intro _; rfl
            | cons hd tl ihs =>
                intro hsubm
                obtain ⟨k, v⟩ := hd
                have hm : (k, v) ∈ fs := hsubm _ (List.mem_cons_self _ _)
                rw [jsDeepEqualFields, Bool.and_eq_true]
                refine ⟨?_, ihs (fun kv hkm => hsubm _ (List.mem_cons_of_mem _ hkm))⟩
                rw [getField_of_mem_nodup hnd hm]
                have hsz : sizeOf v ≤ n := by
                  have h1 := List.sizeOf_lt_of_mem hm
                  simp only [Prod.mk.sizeOf_spec] at h1
                  simp only [JVal.obj.sizeOf_spec] at hs
                  omega
                exact ih v hsz (hsub _ hm)
          exact aux fs (fun _ hm => hm)
      | null => simp [jsDeepEqual, jsLooseEq]
      | bool c => simp [jsDeepEqual, jsLooseEq]
      | num m => simp [jsDeepEqual, jsLooseEq]
      | str s => simp [jsDeepEqual, jsLooseEq]

/-! ### Reconciliation of a tree against itself

When `actual` and `expected` are the same tree (the deep-copy scenario), each
reconciliation step either skips (both sides carry, or both lack, the
discriminator) or raises on a `null` collection element; under the no-null
side condition it is the identity. -/

theorem correctOne_self (a : JVal) (loc : List String) : correctOne a a loc = .ok a := by
  rw [correctOne]
  cases ho : selectn loc a with
  | none => simp [jsTruthy]
  | some v =>
      cases v with
      | null => simp [jsTruthy]
      | bool c => cases c <;> simp [jsTruthy, getPropE]
      | num n =>
          by_cases hn : n = 0
          · simp [jsTruthy, hn]
          · simp [jsTruthy, hn, getPropE]
      | str s =>
          by_cases hs : s = ""
          · simp [jsTruthy, hs]
          · simp [jsTruthy, hs, getPropE]
      | obj bb fs =>
          cases hot : getField fs "objectType" with
          | none => simp [jsTruthy, getPropE, hot]
          | some otv => simp [jsTruthy, getPropE, hot]

/-- The no-null-element plus no-duplicate-key side condition under which the
element loop run against the tree itself is the identity. -/
def collectionSelfSafe (a : JVal) (loc : List String) : Prop :=
  match selectn loc a with
  | some (.obj true afs) =>
      (afs.map Prod.fst).Nodup ∧ ∀ kv ∈ idxFields afs, kv.2 ≠ JVal.null
  | _ => True

theorem reconcileElems_self (a : JVal) (loc : List String) (bt : Bool)
    (tfs : List (String × JVal)) (hsel : selectn loc a = some (.obj bt tfs))
    (hnd : (tfs.map Prod.fst).Nodup) :
    ∀ elems, (∀ kv ∈ elems, kv.2 ≠ JVal.null ∧ kv ∈ tfs) →
      reconcileElems loc elems a = .ok a := by
  intro elems
  induction elems with
  | nil => intro _; rfl
  | cons hd tl ih =>
      intro hall
      obtain ⟨k, v⟩ := hd
      obtain ⟨hvn, hvm⟩ := hall _ (List.mem_cons_self _ _)
      have hget : getField tfs k = some v := getField_of_mem_nodup hnd hvm
      have htl : ∀ kv ∈ tl, kv.2 ≠ JVal.null ∧ kv ∈ tfs :=
        fun kv hm => hall _ (List.mem_cons_of_mem _ hm)
      rw [reconcileElems]
      cases v with
      | null => exact absurd rfl hvn
      | bool c => simpa [getPropE] using ih htl
      | num n => simpa [getPropE] using ih htl
      | str s => simpa [getPropE] using ih htl
      | obj bb fs =>
          cases hot : getField fs "objectType" with
          | none => simpa [getPropE, hot] using ih htl
          | some otv => simpa [getPropE, hot, hsel, hget] using ih htl

theorem correctMultiOne_self (a : JVal) (loc : List String)
    (hcond : collectionSelfSafe a loc) : correctMultiOne a a loc = .ok a := by
  rw [correctMultiOne]
  cases ho : selectn loc a with
  | none => simp [jsTruthy]
  | some v =>
      cases v with
      | null => simp [jsTruthy]
      | bool c => cases c <;> simp [jsTruthy, isArrayVal]
      | num n => simp [jsTruthy, isArrayVal]
      | str s => simp [jsTruthy, isArrayVal]
      | obj ia afs =>
          cases ia with
          | false => simp [jsTruthy, isArrayVal]
          | true =>
              rw [collectionSelfSafe, ho] at hcond
              obtain ⟨hnd, hnn⟩ := hcond
              simp only [jsTruthy, isArrayVal, Bool.false_eq_true, if_neg, Bool.or_self,
                Bool.or_false, Bool.false_or]
              have := reconcileElems_self a loc true afs ho hnd (idxFields afs)
                (fun kv hm => ⟨hnn kv hm, (List.mem_filter.mp hm).1⟩)
              simpa using this

theorem foldLocs_self {f : JVal → List String → Except String JVal}
    {locs : List (List String)} {a : JVal}
    (h : ∀ loc ∈ locs, f a loc = .ok a) : foldLocs f locs a = .ok a := by
  induction locs with
  | nil => rfl
  | cons l ls ih =>
      rw [foldLocs, h l (List.mem_cons_self _ _)]
      exact ih (fun loc hm => h loc (List.mem_cons_of_mem _ hm))

theorem correctObjectTypes_self (a : JVal)
    (hm : ∀ loc ∈ objectTypeLocationsMultiple, collectionSelfSafe a loc) :
    correctObjectTypes a a = .ok a := by
  rw [correctObjectTypes]
  rw [foldLocs_self (fun loc _ => correctOne_self a loc)]
  exact foldLocs_self (fun loc hmem => correctMultiOne_self a loc (hm loc hmem))

/-- Decidable form of the null-free-collections condition: at each listed
collection location that holds an array, no element is `null`. -/
def collectionsNullFree (v : JVal) : Bool :=
  objectTypeLocationsMultiple.all (fun loc =>
    match selectn loc v with
    | some (.obj true afs) => (idxFields afs).all (fun kv => decide (kv.2 ≠ JVal.null))
    | _ => true)

theorem collectionSelfSafe_of {v : JVal} (hwf : wfRecord v = true)
    (hnf : collectionsNullFree v = true) :
    ∀ loc ∈ objectTypeLocationsMultiple, collectionSelfSafe v loc := by
  intro loc hm
  rw [collectionsNullFree, List.all_eq_true] at hnf
  have h1 := hnf loc hm
  rw [collectionSelfSafe]
  cases ho : selectn loc v with
  | none => trivial
  | some w =>
      cases w with
      | null => trivial
      | bool c => trivial
      | num n => trivial
      | str s => trivial
      | obj ia afs =>
          cases ia with
          | false => trivial
          | true =>
              simp only [ho] at h1
              refine ⟨(wfRecord_obj (wfRecord_selectn hwf ho)).1, fun kv hkm => ?_⟩
              simpa using List.all_eq_true.mp h1 kv hkm

/-- A decidable sufficient condition for reflexivity of the comparison: the
tree is duplicate-key-free, carries an `id`, carries `version = "1.0.0"`
exactly (the literal the engine forces onto the expected side), carries no
`stored`, `authority` or `timestamp` field, has a non-null `object` field,
and no array at a listed collection location (of the tree, nor of its
`object` when that is a sub-statement) holds a `null` element. -/
def reflexivitySafe (r : JVal) : Bool :=
  wfRecord r && collectionsNullFree r &&
  (match r with
   | .obj _ fs =>
       (getField fs "id").isSome &&
       (getField fs "version" == some (.str "1.0.0")) &&
       (getField fs "stored" == none) &&
       (getField fs "authority" == none) &&
       (getField fs "timestamp" == none) &&
       (match getField fs "object" with
        | some (.obj ob ofs) =>
            (if getField ofs "objectType" == some (.str "SubStatement")
             then collectionsNullFree (.obj ob ofs) else true)
        | some .null => false
        | some _ => true
        | none => false)
   | _ => false)

theorem statementNormalize_self (r : JVal) (ctx : JVal) (h : reflexivitySafe r = true) :
    statementNormalize r r false ctx = .ok (r, r) := by
  cases r with
  | null => rw [reflexivitySafe] at h <;> simp at h ⊢
  | bool c => rw [reflexivitySafe] at h <;> simp at h ⊢
  | num n => rw [reflexivitySafe] at h <;> simp at h ⊢
  | str s => rw [reflexivitySafe] at h <;> simp at h ⊢
  | obj b fs =>
      rw [reflexivitySafe] at h
      simp only [Bool.and_eq_true, beq_iff_eq, Option.isSome_iff_exists] at h
      obtain ⟨⟨hwf, hnf⟩, ⟨⟨⟨⟨⟨idv, hid⟩, hver⟩, hst⟩, hau⟩, hts⟩, hobj⟩ := h
      have hcoself := collectionSelfSafe_of hwf hnf
      have htss : tsStep (JVal.obj b fs) (JVal.obj b fs) = .ok (.obj b fs, .obj b fs) := by
        rw [tsStep]
        simp only [getPropE, hts, delProp]
        rw [delField_absent hts]
      rw [statementNormalize]
      simp only [getPropE, hid, setProp, delProp]
      rw [setField_self hver, delField_absent hst, delField_absent hau]
      rw [if_neg (show ¬ (false = true) by decide)]
      simp only [correctObjectTypes_self _ hcoself]
      simp only [subStatementStep, getPropE]
      cases hob : getField fs "object" with
      | none => rw [hob] at hobj; simp at hobj
      | some o =>
          rw [hob] at hobj
          cases o with
          | null => simp at hobj
          | bool c => simp only [getPropE]; rw [if_neg (by simp)]; exact htss
          | num n => simp only [getPropE]; rw [if_neg (by simp)]; exact htss
          | str s => simp only [getPropE]; rw [if_neg (by simp)]; exact htss
          | obj ob ofs =>
              have hwfo : wfRecord (.obj ob ofs) = true := wfRecord_getField hwf hob
              have hselobj : selectn ["object"] (JVal.obj b fs) = some (JVal.obj ob ofs) := by
                simp [selectn, hob]
              simp only [getPropE]
              by_cases hsub : getField ofs "objectType" = some (JVal.str "SubStatement")
              · simp only [hsub] at hobj
                simp at hobj
                rw [if_pos hsub, hselobj]
                simp only [correctObjectTypes_self _ (collectionSelfSafe_of hwfo hobj)]
                simp only [updateAtPath, hob]
                rw [setField_self hob]
                exact htss
              · rw [if_neg hsub]
                exact htss

/-! ### Decidability of call outcomes (for concrete evaluations) -/

instance : DecidableEq (Except String JVal) := fun a b =>
  match a, b with
  | .error x, .error y =>
      if h : x = y then isTrue (by rw [h]) else isFalse (fun hh => h (Except.error.inj hh))
  | .ok x, .ok y =>
      if h : x = y then isTrue (by rw [h]) else isFalse (fun hh => h (Except.ok.inj hh))
  | .error _, .ok _ => isFalse (fun hh => Except.noConfusion hh)
  | .ok _, .error _ => isFalse (fun hh => Except.noConfusion hh)

instance : DecidableEq (Except JsErr Unit) := fun a b =>
  match a, b with
  | .error x, .error y =>
      if h : x = y then isTrue (by rw [h]) else isFalse (fun hh => h (Except.error.inj hh))
  | .ok x, .ok y =>
      if h : x = y then isTrue (by rw [h]) else isFalse (fun hh => h (Except.ok.inj hh))
  | .error _, .ok _ => isFalse (fun hh => Except.noConfusion hh)
  | .ok _, .error _ => isFalse (fun hh => Except.noConfusion hh)

instance : DecidableEq (Except JsErr (JVal × JVal)) := fun a b =>
  match a, b with
  | .error x, .error y =>
      if h : x = y then isTrue (by rw [h]) else isFalse (fun hh => h (Except.error.inj hh))
  | .ok x, .ok y =>
      if h : x = y then isTrue (by rw [h]) else isFalse (fun hh => h (Except.ok.inj hh))
  | .error _, .ok _ => isFalse (fun hh => Except.noConfusion hh)
  | .ok _, .error _ => isFalse (fun hh => Except.noConfusion hh)

/-! ### Concrete record fixtures used by the claim theorems -/

/-- A pair of otherwise-matching statements whose timestamps denote
different instants. -/
def tsMismatchActual : JVal :=
  jobj [("id", str "s1"), ("version", str "1.0.0"), ("object", jobj [("id", str "x")]),
        ("timestamp", str "2015-01-01T00:00:00Z")]

/-- See `tsMismatchActual`. -/
def tsMismatchExpected : JVal :=
  jobj [("id", str "s1"), ("version", str "1.0.0"), ("object", jobj [("id", str "x")]),
        ("timestamp", str "2016-01-01T00:00:00Z")]

/-! ### The claims -/

/-- **C1** (counterexample).  The claim says `assertStatementNoMatch` succeeds
exactly when `assertStatementMatch` raises.  On a pair of trees whose
timestamps denote different instants, the shared normalization pipeline itself
raises the timestamp `AssertionError` before the final polarity-dependent
assertion is reached, so BOTH wrappers raise the same error:
`assertStatementMatch` raises while `assertStatementNoMatch` does not
succeed. -/
theorem claim_C1_counterexample :
    (assertStatementMatch tsMismatchActual tsMismatchExpected {} (.str "s1")).1
      = .error (.assertionError "retrieved statement timestamp matches") ∧
    (assertStatementNoMatch tsMismatchActual tsMismatchExpected {} (.str "s1")).1
      = .error (.assertionError "retrieved statement timestamp matches") := by
  constructor <;> decide

/-- **C1** (amended).  The two wrappers are complements of each other exactly
when the shared normalization pipeline completes without raising: in that case
`assertStatementNoMatch` succeeds iff `assertStatementMatch` raises the final
structural assertion, and vice versa.  When normalization itself raises (a
TypeError or the timestamp assertion), both wrappers raise that same error. -/
theorem claim_C1_amended (a e : JVal) (cfg : Cfg) (ctx : JVal) :
    match statementNormalize a e
        (match (cfgNormalize cfg).meaningOnly with | some b => b | none => false) ctx with
    | .ok _ =>
        ((assertStatementNoMatch a e cfg ctx).1 = .ok ()
          ↔ (assertStatementMatch a e cfg ctx).1 = .error (.assertionError "deepEqual")) ∧
        ((assertStatementMatch a e cfg ctx).1 = .ok ()
          ↔ (assertStatementNoMatch a e cfg ctx).1 = .error (.assertionError "notDeepEqual"))
    | .error er =>
        (assertStatementMatch a e cfg ctx).1 = .error er ∧
        (assertStatementNoMatch a e cfg ctx).1 = .error er := by
  have hmA : (assertStatementMatch a e cfg ctx).1
      = match statementNormalize a e
            (match (cfgNormalize cfg).meaningOnly with | some b => b | none => false) ctx with
        | .error er => .error er
        | .ok (x, y) => assertFinal "deepEqual" x y := by
    rw [assertStatementMatch, compareStatements]
    simp [cfgNormalize]
  have hmB : (assertStatementNoMatch a e cfg ctx).1
      = match statementNormalize a e
            (match (cfgNormalize cfg).meaningOnly with | some b => b | none => false) ctx with
        | .error er => .error er
        | .ok (x, y) => assertFinal "notDeepEqual" x y := by
    rw [assertStatementNoMatch, compareStatements]
    simp [cfgNormalize]
  cases hn : statementNormalize a e
      (match (cfgNormalize cfg).meaningOnly with | some b => b | none => false) ctx with
  | error er =>
      rw [hn] at hmA hmB
      exact ⟨hmA, hmB⟩
  | ok p =>
      obtain ⟨a1, e1⟩ := p
      rw [hn] at hmA hmB
      cases hd : jsDeepEqual a1 e1 with
      | true => simp [assertFinal, hd] at hmA hmB; simp [hmA, hmB]
      | false => simp [assertFinal, hd] at hmA hmB; simp [hmA, hmB]

/-- On an actual tree that is an object without an `"object"` key, the
normalization pipeline always raises a TypeError, whatever the expected tree,
mode and context: either `correctObjectTypes` trips over the missing actual
sub-record, or the unguarded `actual.object.objectType` read of line 148
does. -/
theorem statementNormalize_no_object (b : Bool) (fs : List (String × JVal)) (e : JVal)
    (mo : Bool) (ctx : JVal) (h : getField fs "object" = none) :
    ∃ m, statementNormalize (.obj b fs) e mo ctx = .error (.typeError m) := by
  have hdd : getField (delField (delField fs "stored") "authority") "object" = none := by
    rw [getField_delField, getField_delField]
    simp [h]
  have hsubst : ∀ e4 : JVal,
      subStatementStep (.obj b (delField (delField fs "stored") "authority")) e4
        = .error "TypeError: Cannot read property 'objectType' of undefined" := by
    intro e4
    rw [subStatementStep]
    simp [getPropE, hdd]
  rw [statementNormalize]
  simp only [delProp]
  repeat' split
  all_goals first
    | exact ⟨_, rfl⟩
    | (rename_i heq; rw [hsubst] at heq; cases heq)

/-- **C9**.  Every call to `compareStatements` — and therefore to both
wrappers — on an actual tree lacking an `object` field ends in a TypeError
(never a descriptive assertion failure), regardless of the expected tree, the
mode, and the rest of the configuration: `actual.object` is an undocumented
precondition of the comparison interface. -/
theorem claim_C9_actual_object_precondition (b : Bool) (fs : List (String × JVal))
    (e : JVal) (cfg : Cfg) (ctx : JVal) (h : getField fs "object" = none) :
    (∃ m, (compareStatements (.obj b fs) e cfg ctx).1 = .error (.typeError m)) ∧
    (∃ m, (assertStatementMatch (.obj b fs) e cfg ctx).1 = .error (.typeError m)) ∧
    (∃ m, (assertStatementNoMatch (.obj b fs) e cfg ctx).1 = .error (.typeError m)) := by
  have key : ∀ cfg2 : Cfg,
      ∃ m, (compareStatements (.obj b fs) e cfg2 ctx).1 = .error (.typeError m) := by
    intro cfg2
    obtain ⟨m, hm⟩ := statementNormalize_no_object b fs e
      (match (cfgNormalize cfg2).meaningOnly with | some bb => bb | none => false) ctx h
    rw [compareStatements]
    simp only [hm]
    exact ⟨m, rfl⟩
  exact ⟨key cfg, key _, key _⟩

/-- **C9** (witness): a concrete actual tree with no `object` field makes the
comparison raise a TypeError. -/
theorem claim_C9_witness :
    getField [("id", JVal.str "s1")] "object" = none ∧
    (∃ m, (compareStatements (.obj false [("id", JVal.str "s1")])
        (.obj false [("id", JVal.str "s1")]) {} (.str "s1")).1 = .error (.typeError m)) :=
  ⟨by decide,
   (claim_C9_actual_object_precondition false [("id", JVal.str "s1")]
      (.obj false [("id", JVal.str "s1")]) {} (.str "s1") (by decide)).1⟩

/-- **C10**.  The comparison polarity is determined solely by the wrapper
invoked: `assertStatementMatch` leaves the caller's `cfg` with
`assertion = "deepEqual"`, `assertStatementNoMatch` with
`assertion = "notDeepEqual"` (and `meaningOnly` defaulted in place), whatever
`assertion` value the caller had supplied — supplying any other value changes
nothing about the call. -/
theorem claim_C10_cfg_polarity (a e : JVal) (cfg : Cfg) (ctx : JVal) :
    (assertStatementMatch a e cfg ctx).2.assertion = some "deepEqual" ∧
    (assertStatementNoMatch a e cfg ctx).2.assertion = some "notDeepEqual" ∧
    (assertStatementMatch a e cfg ctx).2.meaningOnly
      = some (match cfg.meaningOnly with | some b => b | none => false) ∧
    (assertStatementNoMatch a e cfg ctx).2.meaningOnly
      = some (match cfg.meaningOnly with | some b => b | none => false) ∧
    (∀ s, assertStatementMatch a e { cfg with assertion := s } ctx
        = assertStatementMatch a e cfg ctx) ∧
    (∀ s, assertStatementNoMatch a e { cfg with assertion := s } ctx
        = assertStatementNoMatch a e cfg ctx) :=
  ⟨rfl, rfl, rfl, rfl, fun _ => rfl, fun _ => rfl⟩

/-- The concrete expected tree with a collection-location array used by the
C2 amended theorem. -/
def catExpected : JVal :=
  jobj [("context", jobj [("contextActivities", jobj
    [("category", jarr [jobj [("objectType", str "Activity")]])])])]

/-- **C2** (counterexample).  The claim says `correctObjectTypes` never
raises, and in particular silently skips when an actual sub-record is absent
although the expected one is present.  In fact the unguarded
`actualSubObj.objectType` read of line 68 raises a TypeError on exactly that
input. -/
theorem claim_C2_counterexample :
    correctObjectTypes (.obj false []) (.obj false [("actor", .obj false [])])
      = .error "TypeError: Cannot read property 'objectType' of undefined" := by
  decide

/-- **C2** (amended).  The reconciler silently skips when a listed location is
absent from the expected tree (an empty expected tree makes the whole
reconciliation a no-op for every actual tree) and when the actual value at a
collection location is not an array; but it DOES raise a TypeError when the
actual sub-record at a single-valued location is `undefined` while the
expected one is truthy, and when an actual collection element carrying a
discriminator has no counterpart at its index in the expected sequence. -/
theorem claim_C2_amended :
    (∀ a : JVal, correctObjectTypes a (.obj false []) = .ok (.obj false [])) ∧
    (∀ v : JVal, isArrayVal (some v) = false →
      correctObjectTypes
          (.obj false [("context", .obj false
            [("contextActivities", .obj false [("category", v)])])])
          catExpected
        = .ok catExpected) ∧
    (correctObjectTypes (.obj false []) (.obj false [("actor", .obj false [("mbox", str "m")])])
        = .error "TypeError: Cannot read property 'objectType' of undefined") ∧
    (correctObjectTypes
        (.obj false [("actor", .obj false
          [("member", jarr [.obj false [("objectType", str "Agent")]])])])
        (.obj false [("actor", .obj false [("member", jarr [])])])
      = .error "TypeError: Cannot read property 'objectType' of undefined") := by
  refine ⟨fun a => rfl, fun v hv => ?_, by decide, by decide⟩
  simp [correctObjectTypes, foldLocs, correctOne, correctMultiOne, objectTypeLocations,
    objectTypeLocationsMultiple, selectn, getField, jsTruthy, catExpected, jobj, jarr, hv]

/-- **C2** (amended, witness): instantiated at a concrete non-array actual
collection value. -/
theorem claim_C2_witness :
    isArrayVal (some (JVal.str "notAnArray")) = false ∧
    correctObjectTypes
        (.obj false [("context", .obj false
          [("contextActivities", .obj false [("category", JVal.str "notAnArray")])])])
        catExpected
      = .ok catExpected :=
  ⟨by decide, claim_C2_amended.2.1 (JVal.str "notAnArray") (by decide)⟩

/-- The actual tree of the C3 counterexample: a statement carrying an extra
numeric leaf `foo = 1`. -/
def looseActual : JVal :=
  jobj [("id", str "s1"), ("version", str "1.0.0"), ("object", jobj [("id", str "x")]),
        ("foo", num 1)]

/-- The expected tree of the C3 counterexample: same, but `foo` is the
STRING `"1"`. -/
def looseExpected : JVal :=
  jobj [("id", str "s1"), ("version", str "1.0.0"), ("object", jobj [("id", str "x")]),
        ("foo", str "1")]

/-- **C3** (counterexample).  The claim says `assertStatementMatch` raises iff
the normalized trees are not exactly structurally equal, same value types
included.  But the final assertion is Node's legacy `assert.deepEqual`, whose
leaf comparison is JavaScript's loose `==`: here the normalized trees differ
(number `1` vs string `"1"`), yet the call succeeds. -/
theorem claim_C3_counterexample :
    statementNormalize looseActual looseExpected false (.str "s1")
        = .ok (looseActual, looseExpected) ∧
    looseActual ≠ looseExpected ∧
    (assertStatementMatch looseActual looseExpected {} (.str "s1")).1 = .ok () := by
  refine ⟨by decide, by decide, by decide⟩

/-- **C3** (amended).  When the normalization pipeline completes,
`assertStatementMatch` succeeds iff the two normalized trees are LOOSELY
deep-equal in Node's legacy sense — recursively the same own-key sets (an
absent key on either side is a mismatch), with leaves compared by JS abstract
equality `==` — and raises the structural assertion failure iff they are
not. -/
theorem claim_C3_amended (a e : JVal) (cfg : Cfg) (ctx : JVal) (a1 e1 : JVal)
    (h : statementNormalize a e
        (match (cfgNormalize cfg).meaningOnly with | some b => b | none => false) ctx
        = .ok (a1, e1)) :
    ((assertStatementMatch a e cfg ctx).1 = .ok () ↔ jsDeepEqual a1 e1 = true) ∧
    ((assertStatementMatch a e cfg ctx).1 = .error (.assertionError "deepEqual")
      ↔ jsDeepEqual a1 e1 = false) := by
  have hmA : (assertStatementMatch a e cfg ctx).1
      = match statementNormalize a e
            (match (cfgNormalize cfg).meaningOnly with | some b => b | none => false) ctx with
        | .error er => .error er
        | .ok (x, y) => assertFinal "deepEqual" x y := by
    rw [assertStatementMatch, compareStatements]
    simp [cfgNormalize]
  rw [h] at hmA
  cases hd : jsDeepEqual a1 e1 with
  | true => simp [assertFinal, hd] at hmA; simp [hmA]
  | false => simp [assertFinal, hd] at hmA; simp [hmA]

/-- **C3** (amended, witness): a concrete instantiation where the normalized
trees are loosely deep-equal and the call succeeds. -/
theorem claim_C3_witness :
    statementNormalize looseActual looseExpected false (.str "s1")
        = .ok (looseActual, looseExpected) ∧
    (((assertStatementMatch looseActual looseExpected {} (.str "s1")).1 = .ok ())
      ↔ jsDeepEqual looseActual looseExpected = true) :=
  ⟨by decide,
   (claim_C3_amended looseActual looseExpected {} (.str "s1") looseActual looseExpected
      (by decide)).1⟩

/-- A record with no `id` and no `version` field (C4 counterexample input). -/
def noVersionRecord : JVal :=
  jobj [("actor", jobj [("mbox", str "mailto:a@b.com")]), ("object", jobj [("id", str "x")])]

/-- **C4** (counterexample).  The claim says reflexivity holds for ALL `r`,
including `r` lacking `id` or `version`.  In the value model a deep copy of
`r` is `r` itself.  For an `r` with no `version`, the engine force-sets
`version = "1.0.0"` on the expected copy only, so the key sets differ and the
full-mode match raises. -/
theorem claim_C4_counterexample :
    (assertStatementMatch noVersionRecord noVersionRecord {} (.str "s1")).1
      = .error (.assertionError "deepEqual") := by
  decide

/-- **C4** (amended).  Reflexivity `assertStatementMatch(r, deepCopy r, full)`
holds under the conditions the engine actually needs (`reflexivitySafe`): `r`
is a duplicate-key-free object that has an `id`, has `version = "1.0.0"`
exactly, carries NO `stored`, `authority` or `timestamp` field, has a non-null
`object` field, and has no `null` elements in listed collection arrays (which
would trip the reconciler).  Trees lacking id/version or carrying
stored/authority/timestamp — which the claim explicitly included — are
excluded, as the counterexample forces. -/
theorem reflexivitySafe_wf {r : JVal} (h : reflexivitySafe r = true) : wfRecord r = true := by
  cases r with
  | obj b fs =>
      rw [reflexivitySafe] at h
      exact ((Bool.and_eq_true _ _).mp ((Bool.and_eq_true _ _).mp h).1).1
  | null => rfl
  | bool c => rfl
  | num n => rfl
  | str s => rfl

theorem claim_C4_amended (r : JVal) (cfg : Cfg) (ctx : JVal)
    (h : reflexivitySafe r = true) (hfull : cfg.meaningOnly ≠ some true) :
    (assertStatementMatch r r cfg ctx).1 = .ok () := by
  have hwf : wfRecord r = true := reflexivitySafe_wf h
  have hmo : (match (cfgNormalize { cfg with assertion := some "deepEqual" }).meaningOnly with
      | some b => b | none => false) = false := by
    rcases hx : cfg.meaningOnly with _ | bb
    · simp [cfgNormalize, hx]
    · cases bb
      · simp [cfgNormalize, hx]
      · exact absurd hx hfull
  rw [assertStatementMatch, compareStatements]
  simp only [hmo]
  rw [statementNormalize_self r ctx h]
  have hde : jsDeepEqual r r = true := jsDeepEqual_refl (sizeOf r) r le_rfl hwf
  simp [cfgNormalize, assertFinal, hde]

/-- **C4** (amended, witness): a concrete safe record matches its own deep
copy in full mode. -/
theorem claim_C4_witness :
    reflexivitySafe (jobj [("id", str "s1"), ("version", str "1.0.0"),
        ("actor", jobj [("mbox", str "mailto:a@b.com")]),
        ("object", jobj [("id", str "x")])]) = true ∧
    (Cfg.meaningOnly {} ≠ some true) ∧
    (assertStatementMatch
        (jobj [("id", str "s1"), ("version", str "1.0.0"),
          ("actor", jobj [("mbox", str "mailto:a@b.com")]),
          ("object", jobj [("id", str "x")])])
        (jobj [("id", str "s1"), ("version", str "1.0.0"),
          ("actor", jobj [("mbox", str "mailto:a@b.com")]),
          ("object", jobj [("id", str "x")])]) {} (.str "s1")).1 = .ok () :=
  ⟨by decide, by decide,
   claim_C4_amended _ {} (.str "s1") (by decide) (by decide)⟩

/-- The skeleton shared by the C7 family: a statement with `id` and `object`
but no version/stored/authority/timestamp. -/
def bookkeepingBase : List (String × JVal) :=
  [("id", str "s1"), ("object", jobj [("id", str "x")])]

/-- **C7** (counterexample).  The claim says that in meaning-only mode two
trees differing only in their `version` values are considered matching.  In
fact meaning-only mode deletes `version` from the EXPECTED side only —
`actual.version` is never stripped — so the key sets differ and the match
raises. -/
theorem claim_C7_counterexample :
    (assertStatementMatch (.obj false (bookkeepingBase ++ [("version", str "2.0.0")]))
        (.obj false (bookkeepingBase ++ [("version", str "3.0.0")]))
        { meaningOnly := some true } (.str "s1")).1
      = .error (.assertionError "deepEqual") := by
  decide

/-- **C7** (amended).  `stored` and `authority` are always deleted from the
actual tree and kept on the expected tree except in meaning-only mode (first
conjunct, the normalized trees exhibit it).  Consequently: in meaning-only
mode trees differing only in `stored`/`authority` match, but trees differing
only in `version` do NOT (the actual side keeps its version); in full mode
trees differing only in `stored`/`authority` never match, and trees differing
only in `version` match exactly when the actual's version is loosely equal to
the forced literal `"1.0.0"` (the expected's own value being overwritten). -/
theorem claim_C7_amended :
    (∀ s1 a1 s2 a2 : JVal,
      statementNormalize
          (.obj false (bookkeepingBase ++ [("stored", s1), ("authority", a1)]))
          (.obj false (bookkeepingBase ++ [("stored", s2), ("authority", a2)]))
          false (.str "s1")
        = .ok (.obj false bookkeepingBase,
               .obj false (bookkeepingBase
                 ++ [("stored", s2), ("authority", a2), ("version", str "1.0.0")]))) ∧
    (∀ s1 a1 s2 a2 : JVal,
      (assertStatementMatch
          (.obj false (bookkeepingBase ++ [("stored", s1), ("authority", a1)]))
          (.obj false (bookkeepingBase ++ [("stored", s2), ("authority", a2)]))
          { meaningOnly := some true } (.str "s1")).1 = .ok ()) ∧
    (∀ v1 v2 : JVal,
      (assertStatementMatch
          (.obj false (bookkeepingBase ++ [("version", v1)]))
          (.obj false (bookkeepingBase ++ [("version", v2)]))
          { meaningOnly := some true } (.str "s1")).1
        = .error (.assertionError "deepEqual")) ∧
    (∀ s1 a1 s2 a2 : JVal,
      (assertStatementMatch
          (.obj false (bookkeepingBase ++ [("stored", s1), ("authority", a1)]))
          (.obj false (bookkeepingBase ++ [("stored", s2), ("authority", a2)]))
          {} (.str "s1")).1 = .error (.assertionError "deepEqual")) ∧
    (∀ v1 v2 : JVal,
      (assertStatementMatch
          (.obj false (bookkeepingBase ++ [("version", v1)]))
          (.obj false (bookkeepingBase ++ [("version", v2)]))
          {} (.str "s1")).1
        = if jsDeepEqual v1 (.str "1.0.0") then .ok ()
          else .error (.assertionError "deepEqual")) := by
  refine ⟨fun s1 a1 s2 a2 => rfl, fun s1 a1 s2 a2 => rfl, fun v1 v2 => rfl,
    fun s1 a1 s2 a2 => rfl, fun v1 v2 => ?_⟩
  have hm : (assertStatementMatch
      (.obj false (bookkeepingBase ++ [("version", v1)]))
      (.obj false (bookkeepingBase ++ [("version", v2)]))
      {} (.str "s1")).1
    = assertFinal "deepEqual" (.obj false (bookkeepingBase ++ [("version", v1)]))
        (.obj false (bookkeepingBase ++ [("version", str "1.0.0")])) := rfl
  rw [hm]
  have hde : jsDeepEqual (.obj false (bookkeepingBase ++ [("version", v1)]))
      (.obj false (bookkeepingBase ++ [("version", str "1.0.0")]))
      = jsDeepEqual v1 (.str "1.0.0") := by
    show (jsDeepEqual v1 (.str "1.0.0") && true) = jsDeepEqual v1 (.str "1.0.0")
    exact Bool.and_true _
  rw [assertFinal, if_pos rfl, hde]


/-- The skeleton of the C6 timestamp family: a statement matching on
everything except possibly the timestamp. -/
def tsBase : List (String × JVal) :=
  [("id", str "s1"), ("version", str "1.0.0"), ("object", jobj [("id", str "x")])]

/-- **C6**.  When the expected tree defines a (string) timestamp: if it ends
in a sign-prefixed two-digit offset, `":00"` is appended before parsing; both
sides are then parsed as ISO-8601 calendar timestamps and compared for
INSTANT equality (`momentIsSame` on `momentISO`, not string equality); on
success both `timestamp` fields are removed before the structural comparison
(the normalized trees carry no `timestamp` key), and on differing instants
the call raises the timestamp assertion failure.  The last conjunct
instantiates the same-instant/different-offset-representation case: the
expected `"…T10:00:00+05"` (which repository-era moment cannot even parse
bare — third conjunct) equals the actual `"…T05:00:00Z"` after the fix-up,
and the match succeeds. -/
theorem claim_C6_timestamps :
    (∀ tsE tsA : String,
      statementNormalize (.obj false (tsBase ++ [("timestamp", str tsA)]))
          (.obj false (tsBase ++ [("timestamp", str tsE)])) false (.str "s1")
        = if momentIsSame
              (momentISO (if twoDigitOffsetRe tsE then tsE ++ ":00" else tsE))
              (momentISO tsA)
          then .ok (.obj false tsBase, .obj false tsBase)
          else .error (.assertionError "retrieved statement timestamp matches")) ∧
    (∀ tsE tsA : String,
      (assertStatementMatch (.obj false (tsBase ++ [("timestamp", str tsA)]))
          (.obj false (tsBase ++ [("timestamp", str tsE)])) {} (.str "s1")).1
        = if momentIsSame
              (momentISO (if twoDigitOffsetRe tsE then tsE ++ ":00" else tsE))
              (momentISO tsA)
          then .ok () else .error (.assertionError "retrieved statement timestamp matches")) ∧
    twoDigitOffsetRe "2015-01-01T10:00:00+05" = true ∧
    ("2015-01-01T10:00:00+05" : String) ≠ "2015-01-01T05:00:00Z" ∧
    momentISO "2015-01-01T10:00:00+05" = none ∧
    momentISO ("2015-01-01T10:00:00+05" ++ ":00") = momentISO "2015-01-01T05:00:00Z" ∧
    (assertStatementMatch (.obj false (tsBase ++ [("timestamp", str "2015-01-01T05:00:00Z")]))
        (.obj false (tsBase ++ [("timestamp", str "2015-01-01T10:00:00+05")]))
        {} (.str "s1")).1 = .ok () := by
  have key : ∀ tsE tsA : String,
      statementNormalize (.obj false (tsBase ++ [("timestamp", str tsA)]))
          (.obj false (tsBase ++ [("timestamp", str tsE)])) false (.str "s1")
        = if momentIsSame
              (momentISO (if twoDigitOffsetRe tsE then tsE ++ ":00" else tsE))
              (momentISO tsA)
          then .ok (.obj false tsBase, .obj false tsBase)
          else .error (.assertionError "retrieved statement timestamp matches") := by
    intro tsE tsA
    have hstep : statementNormalize (.obj false (tsBase ++ [("timestamp", str tsA)]))
        (.obj false (tsBase ++ [("timestamp", str tsE)])) false (.str "s1")
      = tsStep (.obj false (tsBase ++ [("timestamp", str tsA)]))
          (.obj false (tsBase ++ [("timestamp", str tsE)])) := rfl
    rw [hstep]
    by_cases hfix : twoDigitOffsetRe tsE = true
    · simp only [tsStep]
      simp [tsBase, getField, getPropE, jsToString, setProp, setField, delProp, delField,
        momentJs, hfix]
    · simp only [tsStep]
      simp [tsBase, getField, getPropE, jsToString, setProp, setField, delProp, delField,
        momentJs, hfix]
  refine ⟨key, fun tsE tsA => ?_, by decide, by decide, by decide, by decide, by decide⟩
  have hm : (assertStatementMatch (.obj false (tsBase ++ [("timestamp", str tsA)]))
      (.obj false (tsBase ++ [("timestamp", str tsE)])) {} (.str "s1")).1
    = match statementNormalize (.obj false (tsBase ++ [("timestamp", str tsA)]))
          (.obj false (tsBase ++ [("timestamp", str tsE)])) false (.str "s1") with
      | .error er => .error er
      | .ok (x, y) => assertFinal "deepEqual" x y := rfl
  rw [hm, key tsE tsA]
  cases hsame : momentIsSame
      (momentISO (if twoDigitOffsetRe tsE then tsE ++ ":00" else tsE)) (momentISO tsA) with
  | true => simp only [if_true]; decide
  | false => simp only [Bool.false_eq_true, if_false]


/-- **C5**.  Discriminator reconciliation is one-directional.  At a listed
single-valued location where both sub-records exist as objects, an
`objectType` carried by the actual and absent from the expected is copied
onto the expected sub-record (first conjunct); when the actual sub-record
exists but carries no `objectType`, nothing is changed whatever the expected
side holds (second conjunct) — likewise element-wise for listed collection
locations (third and fourth conjuncts, singleton sequences).  Consequently a
pair of statements differing only by an expected-side discriminator fails
`assertStatementMatch` (last conjunct, parametric in the agent's `mbox` and
the stray discriminator value). -/
theorem claim_C5_one_directional :
    (∀ loc ∈ objectTypeLocations, ∀ (a e : JVal) (ba be : Bool)
        (afs efs : List (String × JVal)) (otv : JVal),
      selectn loc a = some (.obj ba afs) → getField afs "objectType" = some otv →
      selectn loc e = some (.obj be efs) → getField efs "objectType" = none →
      correctOne a e loc
        = .ok (updateAtPath e loc (.obj be (setField efs "objectType" otv)))) ∧
    (∀ (loc : List String) (a e : JVal) (ba : Bool) (afs : List (String × JVal)),
      selectn loc a = some (.obj ba afs) → getField afs "objectType" = none →
      correctOne a e loc = .ok e) ∧
    (∀ loc ∈ objectTypeLocationsMultiple, ∀ (a e : JVal) (ba be bs : Bool)
        (afs efs : List (String × JVal)) (otv : JVal),
      selectn loc a = some (.obj true [("0", .obj ba afs)]) →
      getField afs "objectType" = some otv →
      selectn loc e = some (.obj bs [("0", .obj be efs)]) →
      getField efs "objectType" = none →
      correctMultiOne a e loc
        = .ok (updateAtPath e (loc ++ ["0"]) (.obj be (setField efs "objectType" otv)))) ∧
    (∀ (loc : List String) (a e : JVal) (ba : Bool) (afs : List (String × JVal)),
      selectn loc a = some (.obj true [("0", .obj ba afs)]) →
      getField afs "objectType" = none →
      correctMultiOne a e loc = .ok e) ∧
    (∀ m d : JVal,
      (assertStatementMatch
          (.obj false [("id", str "s1"), ("version", str "1.0.0"),
            ("actor", .obj false [("mbox", m)]), ("object", jobj [("id", str "x")])])
          (.obj false [("id", str "s1"), ("version", str "1.0.0"),
            ("actor", .obj false [("mbox", m), ("objectType", d)]),
            ("object", jobj [("id", str "x")])])
          {} (.str "s1")).1 = .error (.assertionError "deepEqual")) := by
  refine ⟨?_, ?_, ?_, ?_, fun m d => rfl⟩
  · intro loc _ a e ba be afs efs otv hsa hga hse hge
    simp [correctOne, hsa, hse, hga, hge, getPropE, jsTruthy]
  · intro loc a e ba afs hsa hga
    rw [correctOne]
    by_cases ht : jsTruthy (selectn loc e) = false
    · simp [ht]
    · simp [ht, hsa, getPropE, hga]
  · intro loc _ a e ba be bs afs efs otv hsa hga hse hge
    have h0 : getField [("0", JVal.obj be efs)] "0" = some (JVal.obj be efs) := rfl
    simp [correctMultiOne, hsa, hse, getPropE, jsTruthy, isArrayVal, idxFields, isIdxKey,
      reconcileElems, hga, hge, h0]
  · intro loc a e ba afs hsa hga
    rw [correctMultiOne]
    by_cases ht : jsTruthy (selectn loc e) = false
    · simp [ht]
    · simp [ht, hsa, isArrayVal, idxFields, isIdxKey, reconcileElems, getPropE, hga]

/-- **C5** (witness): a concrete actual-side discriminator at the `actor`
location is copied onto the expected sub-record. -/
theorem claim_C5_witness :
    (["actor"] ∈ objectTypeLocations ∧
     selectn ["actor"] (.obj false [("actor", .obj false [("objectType", JVal.str "Agent")])])
       = some (.obj false [("objectType", JVal.str "Agent")]) ∧
     getField [("objectType", JVal.str "Agent")] "objectType" = some (JVal.str "Agent") ∧
     selectn ["actor"] (.obj false [("actor", .obj false [("mbox", JVal.str "m")])])
       = some (.obj false [("mbox", JVal.str "m")]) ∧
     getField [("mbox", JVal.str "m")] "objectType" = none) ∧
    correctOne (.obj false [("actor", .obj false [("objectType", JVal.str "Agent")])])
        (.obj false [("actor", .obj false [("mbox", JVal.str "m")])]) ["actor"]
      = .ok (updateAtPath (.obj false [("actor", .obj false [("mbox", JVal.str "m")])])
          ["actor"]
          (.obj false (setField [("mbox", JVal.str "m")] "objectType" (JVal.str "Agent")))) :=
  ⟨⟨by decide, by decide, by decide, by decide, by decide⟩,
   claim_C5_one_directional.1 ["actor"] (by decide)
     (.obj false [("actor", .obj false [("objectType", JVal.str "Agent")])])
     (.obj false [("actor", .obj false [("mbox", JVal.str "m")])])
     false false [("objectType", JVal.str "Agent")] [("mbox", JVal.str "m")]
     (JVal.str "Agent") (by decide) (by decide) (by decide) (by decide)⟩

/-- The sub-statement pair of C8: the actual's embedded sub-statement carries
an `objectType` on its own `actor` that the expected one lacks. -/
def subA : JVal :=
  jobj [("id", str "s1"), ("version", str "1.0.0"),
        ("object", jobj [("objectType", str "SubStatement"),
          ("actor", jobj [("mbox", str "mailto:a@b.com"), ("objectType", str "Agent")]),
          ("object", jobj [("id", str "y")])])]

/-- See `subA`: same, minus the embedded actor's discriminator. -/
def subE : JVal :=
  jobj [("id", str "s1"), ("version", str "1.0.0"),
        ("object", jobj [("objectType", str "SubStatement"),
          ("actor", jobj [("mbox", str "mailto:a@b.com")]),
          ("object", jobj [("id", str "y")])])]

/-- The same shape as `subA`/`subE` but with the top-level object's
discriminator `"Activity"` instead of `"SubStatement"`. -/
def actA : JVal :=
  jobj [("id", str "s1"), ("version", str "1.0.0"),
        ("object", jobj [("objectType", str "Activity"),
          ("actor", jobj [("mbox", str "mailto:a@b.com"), ("objectType", str "Agent")]),
          ("object", jobj [("id", str "y")])])]

/-- See `actA`. -/
def actE : JVal :=
  jobj [("id", str "s1"), ("version", str "1.0.0"),
        ("object", jobj [("objectType", str "Activity"),
          ("actor", jobj [("mbox", str "mailto:a@b.com")]),
          ("object", jobj [("id", str "y")])])]

/-- A third-level discriminator difference: the sub-statement's own `object`
is again sub-statement-shaped and ITS `actor` differs by an actual-side
discriminator. -/
def deepA : JVal :=
  jobj [("id", str "s1"), ("version", str "1.0.0"),
        ("object", jobj [("objectType", str "SubStatement"),
          ("object", jobj [("objectType", str "SubStatement"),
            ("actor", jobj [("mbox", str "mailto:a@b.com"),
              ("objectType", str "Agent")])])])]

/-- See `deepA`. -/
def deepE : JVal :=
  jobj [("id", str "s1"), ("version", str "1.0.0"),
        ("object", jobj [("objectType", str "SubStatement"),
          ("object", jobj [("objectType", str "SubStatement"),
            ("actor", jobj [("mbox", str "mailto:a@b.com")])])])]

/-- **C8**.  Reconciliation recurses exactly one level into an embedded
sub-statement: an actual-side discriminator on the sub-statement's own
`actor` is reconciled away when the top-level object's discriminator is
`"SubStatement"` (the match succeeds), is NOT reconciled when it is
`"Activity"` (the same inner difference fails the match), and is NOT
reconciled at the third nesting level even under a chain of sub-statement
discriminators (the match fails). -/
theorem claim_C8_substatement_depth :
    (assertStatementMatch subA subE {} (.str "s1")).1 = .ok () ∧
    (assertStatementMatch actA actE {} (.str "s1")).1
      = .error (.assertionError "deepEqual") ∧
    (assertStatementMatch deepA deepE {} (.str "s1")).1
      = .error (.assertionError "deepEqual") := by
  refine ⟨by decide, by decide, by decide⟩

end XapiConsistent
